import Mathlib

/-!
Verification of the Ignite↔Discord channel bridge (src/index.js).

The file shallowly embeds the bot's event handlers as pure Lean functions.
JavaScript `Map` objects become association lists that keep JS `Map`
insertion-order/overwrite-in-place semantics; asynchronous REST and gateway
calls become an explicit environment (`Env`) answering each external call;
an event handler returns its updated state together with the ordered list of
externally visible actions (`Effect`) it performs.  `console.log` calls are
not modelled: they are the only operations dropped.
-/

namespace IgniteBridge

/-- Models JavaScript `String.prototype.toLowerCase` on the ASCII range
(the only range exercised by the command names the code compares). -/
def jsToLower (s : String) : String := ⟨s.data.map Char.toLower⟩

/-- Models JavaScript `String.prototype.startsWith`. -/
def jsStartsWith (s pre : String) : Bool := List.isPrefixOf pre.data s.data

/-- Character-list splitter behind `jsSplit`; keeps empty segments, exactly
like JavaScript `split` with a single-character separator. -/
def splitChars (sep : Char) : List Char → List (List Char)
  | [] => [[]]
  | c :: cs =>
    if c == sep then [] :: splitChars sep cs
    else
      match splitChars sep cs with
      | [] => [[c]]
      | h :: t => (c :: h) :: t

/-- Models JavaScript `String.prototype.split` with a one-character
separator (the source always splits on a single space `' '`). -/
def jsSplit (s : String) (sep : Char) : List String :=
  (splitChars sep s.data).map (fun l => ⟨l⟩)

/-- A JavaScript `Map` with string keys and values: an association list in
insertion order.  `mapSet` overwrites in place (JS `Map.set` keeps the
original position of an existing key); `mapGet` returns the first (unique)
binding. -/
def mapSet (m : List (String × String)) (k v : String) : List (String × String) :=
  match m with
  | [] => [(k, v)]
  | p :: rest => if p.1 == k then (k, v) :: rest else p :: mapSet rest k v

/-- JS `Map.get`, with `none` for `undefined`. -/
def mapGet (m : List (String × String)) (k : String) : Option String :=
  match m with
  | [] => none
  | p :: rest => if p.1 == k then some p.2 else mapGet rest k

/-- JS `Map.has`. -/
def mapHas (m : List (String × String)) (k : String) : Bool :=
  match m with
  | [] => false
  | p :: rest => p.1 == k || mapHas rest k

theorem mapGet_set_self (m : List (String × String)) (k v : String) :
    mapGet (mapSet m k v) k = some v := by
  induction m with
  | nil => simp [mapSet, mapGet]
  | cons p rest ih =>
    by_cases h : p.1 = k
    · simp [mapSet, mapGet, h]
    · simp only [mapSet, mapGet, beq_iff_eq, h, if_false]
      exact ih

theorem mapGet_set_other (m : List (String × String)) (k v k' : String)
    (h : k' ≠ k) : mapGet (mapSet m k v) k' = mapGet m k' := by
  have h' : k ≠ k' := Ne.symm h
  induction m with
  | nil => simp [mapSet, mapGet, h']
  | cons p rest ih =>
    by_cases hp : p.1 = k
    · simp [mapSet, mapGet, hp, h']
    · by_cases hp' : p.1 = k'
      · simp [mapSet, mapGet, hp, hp', h]
      · simp only [mapSet, mapGet, beq_iff_eq, hp, hp', if_false]
        exact ih

/-- `!bridge` success path, src/index.js lines 224–225:
`bridgedChannels.set(targetChannelId, msg.channel_id);`
`bridgedChannels.set(msg.channel_id, targetChannelId);`
with `a = msg.channel_id` (Ignite side) and `b = targetChannelId`
(Discord side). -/
def registerBridge (m : List (String × String)) (a b : String) :
    List (String × String) :=
  mapSet (mapSet m b a) a b

/-- Bridge lookup: `bridgedChannels.get(id)`. -/
def lookup (m : List (String × String)) (id : String) : Option String :=
  mapGet m id

/-- Correlation registration, src/index.js lines 310–311 and 507–508:
`messageMap.set(orig, fresh); messageMap.set(fresh, orig);`
where `orig` is the id of the message being forwarded and `fresh` the id of
the newly created cross-posted message. -/
def registerCorrelation (m : List (String × String)) (orig fresh : String) :
    List (String × String) :=
  mapSet (mapSet m orig fresh) fresh orig

/-- Correlation lookup: `messageMap.get(id)`. -/
def lookupCorrelation (m : List (String × String)) (id : String) :
    Option String :=
  mapGet m id

/-- C1: for every pair of identifiers `x` and `y`, immediately after
`registerBridge(x, y)` (the successful `!bridge` path storing both
directions), `lookup(x)` returns `y` and `lookup(y)` returns `x`. -/
theorem bridge_symmetry (m : List (String × String)) (x y : String) :
    lookup (registerBridge m x y) x = some y ∧
      lookup (registerBridge m x y) y = some x := by
  unfold lookup registerBridge
  by_cases hxy : y = x
  · subst hxy
    constructor <;> simp [mapGet_set_self]
  · refine ⟨mapGet_set_self _ _ _, ?_⟩
    rw [mapGet_set_other _ _ _ _ hxy, mapGet_set_self]

/-- C2: for all distinct identifiers `a`, `b`, `c`, after
`registerBridge(a, b)` then `registerBridge(a, c)`, `lookup(a) = c` and
`lookup(c) = a`, while the stale reverse link persists: `lookup(b)` still
equals `a`. -/
theorem bridge_overwrite_stale (m : List (String × String)) (a b c : String)
    (hab : a ≠ b) (hac : a ≠ c) (hbc : b ≠ c) :
    lookup (registerBridge (registerBridge m a b) a c) a = some c ∧
      lookup (registerBridge (registerBridge m a b) a c) c = some a ∧
      lookup (registerBridge (registerBridge m a b) a c) b = some a := by
  unfold lookup registerBridge
  refine ⟨mapGet_set_self _ _ _, ?_, ?_⟩
  · rw [mapGet_set_other _ _ _ _ (fun h => hac h.symm), mapGet_set_self]
  · rw [mapGet_set_other _ _ _ _ (fun h => hab h.symm),
      mapGet_set_other _ _ _ _ hbc,
      mapGet_set_other _ _ _ _ (fun h => hab h.symm),
      mapGet_set_self]

/-- Witness for `bridge_overwrite_stale` at the concrete registry history
`registerBridge("A","B")` then `registerBridge("A","C")`. -/
theorem bridge_overwrite_stale_witness :
    lookup (registerBridge (registerBridge [] "A" "B") "A" "C") "A" = some "C" ∧
      lookup (registerBridge (registerBridge [] "A" "B") "A" "C") "C" = some "A" ∧
      lookup (registerBridge (registerBridge [] "A" "B") "A" "C") "B" = some "A" :=
  bridge_overwrite_stale [] "A" "B" "C" (by decide) (by decide) (by decide)

/-- Author object of an Ignite `message.created` payload
(`msg.author` / `msg.user`): the handler reads `name` for forwarding and
`is_bot` for the loop guard. -/
structure Author where
  id : String
  name : String
  username : String
  is_bot : Bool
deriving DecidableEq

/-- The `msg` object of an Ignite `message.created` event.  `guild` models
the `msg.guild` field the `!kick` branch dereferences (`none` when the
field is absent, as in the documented payload). -/
structure IgniteMsg where
  id : String
  content : String
  channel_id : String
  author : Author
  guild : Option String
deriving DecidableEq

/-- A fetched Discord channel: the fields the handlers read
(`channel.type`, with `0` = GuildText, and `channel.name`). -/
structure DChannel where
  name : String
  type : Nat
deriving DecidableEq

/-- A Discord `messageCreate` event message: the fields the handler reads. -/
structure DiscordMsg where
  id : String
  content : String
  channelId : String
  authorUsername : String
  authorBot : Bool
deriving DecidableEq

/-- Oracle answering every external (asynchronous) call a handler makes.
A `none`/`false` answer covers both a rejected promise and a
resolved-but-null result: the source treats the two identically
(log and stop). -/
structure Env where
  /-- `discordClient.channels.fetch(id)`. -/
  discordChannels : String → Option DChannel
  /-- `channel.send(content)` on a Discord channel: the new message's id. -/
  discordSendResult : String → String → Option String
  /-- `POST /v1/channels/{id}/messages` with `{content}`: `data.id` of the
  created Ignite message. -/
  igniteSendResult : String → String → Option String
  /-- `discordClient.users.fetch(id)`: the fetched user's `id`. -/
  discordUsers : String → Option String
  /-- `guild.members.fetch(userId)`: the fetched member's id. -/
  guildMembers : String → String → Option String
  /-- `channel.messages.fetch(msgId)` on a Discord channel: message found. -/
  discordMessages : String → String → Bool

/-- Externally visible actions a handler performs, in program order. -/
inductive Effect where
  /-- `POST /v1/channels/{channelId}/messages` with `{content}`. -/
  | igniteSend (channelId content : String)
  /-- `channel.send(content)` on the Discord channel `channelId`. -/
  | discordSend (channelId content : String)
  /-- `bridgedChannels.set(k, v)`. -/
  | setBridge (k v : String)
  /-- `messageMap.set(k, v)`. -/
  | setCorrelation (k v : String)
  /-- `member.kick(reason)` on a member of guild `guildId`. -/
  | kick (guildId memberId reason : String)
  /-- `channel.messages.fetch(msgId)` on the Discord channel `channelId`. -/
  | fetchDiscordMsg (channelId msgId : String)
  /-- `discordMsg.delete()` of `msgId` in the Discord channel `channelId`. -/
  | deleteDiscordMsg (channelId msgId : String)
deriving DecidableEq

/-- The two process-wide maps the handlers mutate. -/
structure State where
  bridgedChannels : List (String × String)
  messageMap : List (String × String)
deriving DecidableEq

/-- The `!bridge` branch (src/index.js lines 204–253): split the content
on single spaces, take the first argument as a Discord channel id, fetch
it, require a text channel (`type === 0`), then register both directions
and post the confirmation to the Ignite channel.  The registration and the
confirmation happen inside the `channels.fetch` continuation. -/
def bridgeStep (env : Env) (bridged : List (String × String))
    (msg : IgniteMsg) : List (String × String) × List Effect :=
  match jsSplit msg.content ' ' with
  | _ :: target :: _ =>
    match env.discordChannels target with
    | none => (bridged, [])
    | some ch =>
      if ch.type == 0 then
        (registerBridge bridged msg.channel_id target,
          [Effect.setBridge target msg.channel_id,
           Effect.setBridge msg.channel_id target,
           Effect.igniteSend msg.channel_id
             ("This Ignite channel is now bridged with Discord channel #"
               ++ ch.name)])
      else (bridged, [])
  | _ => (bridged, [])

/-- The `!kick` branch (src/index.js lines 257–294): split the content,
fetch the argument as a Discord user, require `msg.guild`, fetch the
member, and kick with the fixed audit reason.  The user fetch precedes
the guild check, exactly as in the source. -/
def kickFx (env : Env) (msg : IgniteMsg) : List Effect :=
  match jsSplit msg.content ' ' with
  | _ :: target :: _ =>
    match env.discordUsers target with
    | none => []
    | some userId =>
      match msg.guild with
      | none => []
      | some guildId =>
        match env.guildMembers guildId userId with
        | none => []
        | some memberId =>
          [Effect.kick guildId memberId "Kicked by command"]
  | _ => []

/-- The `if/else-if` command chain of the `message.created` handler
(src/index.js lines 183–294): `!ping` exact match after lowercasing, then
`!bridge <id>`, then `!kick <id>`.  Returns the updated bridge table and
the command's effects. -/
def commandStep (env : Env) (bridged : List (String × String))
    (msg : IgniteMsg) : List (String × String) × List Effect :=
  if jsToLower msg.content == "!ping" then
    (bridged, [Effect.igniteSend msg.channel_id "pong"])
  else if jsStartsWith (jsToLower msg.content) "!bridge" then
    bridgeStep env bridged msg
  else if jsStartsWith (jsToLower msg.content) "!kick" then
    (bridged, kickFx env msg)
  else (bridged, [])

/-- The forwarding block of the `message.created` handler (src/index.js
lines 297–319): if the origin channel is bridged, fetch the Discord
channel, send the formatted message, and on success register the
correlation.  `bridged` is the table as read by the synchronous
`bridgedChannels.has`/`get` calls. -/
def forwardStep (env : Env) (bridged mm : List (String × String))
    (msg : IgniteMsg) : List (String × String) × List Effect :=
  match mapGet bridged msg.channel_id with
  | none => (mm, [])
  | some discordChannelId =>
    match env.discordChannels discordChannelId with
    | none => (mm, [])
    | some _ =>
      match env.discordSendResult discordChannelId
          ("💬 [Ignite] " ++ msg.author.name ++ ": " ++ msg.content) with
      | none =>
        (mm, [Effect.discordSend discordChannelId
          ("💬 [Ignite] " ++ msg.author.name ++ ": " ++ msg.content)])
      | some newId =>
        (registerCorrelation mm msg.id newId,
          [Effect.discordSend discordChannelId
            ("💬 [Ignite] " ++ msg.author.name ++ ": " ++ msg.content),
           Effect.setCorrelation msg.id newId,
           Effect.setCorrelation newId msg.id])

/-- The Ignite `message.created` handler (src/index.js lines 171–320):
bot guard, command chain, then forwarding.  The `!bridge` registration
runs in a promise continuation that resolves after the synchronous
`bridgedChannels.has(msg.channel_id)` check, so the forwarding block
consults the bridge table as it was when the event arrived; the command
chain and the forwarding block touch disjoint maps, so the final state
composes them. -/
def handleMessageCreated (env : Env) (st : State) (msg : IgniteMsg) :
    State × List Effect :=
  if msg.author.is_bot then (st, [])
  else
    let cmd := commandStep env st.bridgedChannels msg
    let fwd := forwardStep env st.bridgedChannels st.messageMap msg
    (⟨cmd.1, fwd.1⟩, cmd.2 ++ fwd.2)

/-- The Discord `messageCreate` handler (src/index.js lines 487–513):
bot guard, bridge lookup, Ignite REST send, and on success the symmetric
correlation registration. -/
def handleDiscordMessageCreate (env : Env) (st : State) (dmsg : DiscordMsg) :
    State × List Effect :=
  if dmsg.authorBot then (st, [])
  else
    match mapGet st.bridgedChannels dmsg.channelId with
    | none => (st, [])
    | some igniteChannelId =>
      match env.igniteSendResult igniteChannelId
          ("[Discord] " ++ dmsg.authorUsername ++ ": " ++ dmsg.content) with
      | none =>
        (st, [Effect.igniteSend igniteChannelId
          ("[Discord] " ++ dmsg.authorUsername ++ ": " ++ dmsg.content)])
      | some newId =>
        (⟨st.bridgedChannels, registerCorrelation st.messageMap dmsg.id newId⟩,
          [Effect.igniteSend igniteChannelId
            ("[Discord] " ++ dmsg.authorUsername ++ ": " ++ dmsg.content),
           Effect.setCorrelation dmsg.id newId,
           Effect.setCorrelation newId dmsg.id])

/-- Per-entry body of the deletion scan (src/index.js lines 338–364):
for a bridge-table entry `(discordChannelId, igniteChannelId)` with
`igniteChannelId === msg.channel_id`, fetch the Discord channel, fetch the
correlated message, and delete it; any failed step stops that entry. -/
def deleteScanEntry (env : Env) (msgChannelId discordMsgId : String)
    (p : String × String) : List Effect :=
  if p.2 == msgChannelId then
    match env.discordChannels p.1 with
    | none => []
    | some _ =>
      if env.discordMessages p.1 discordMsgId then
        [Effect.fetchDiscordMsg p.1 discordMsgId,
         Effect.deleteDiscordMsg p.1 discordMsgId]
      else
        [Effect.fetchDiscordMsg p.1 discordMsgId]
  else []

/-- The Ignite `message.deleted` handler (src/index.js lines 326–366):
if the deleted id has a correlation, scan every bridge-table entry whose
Ignite side equals the deleted message's channel and attempt the Discord
deletion there.  The handler mutates no map, so only effects are
returned. -/
def handleMessageDeleted (env : Env) (st : State)
    (msgId msgChannelId : String) : List Effect :=
  match mapGet st.messageMap msgId with
  | none => []
  | some discordMsgId =>
    st.bridgedChannels.flatMap (deleteScanEntry env msgChannelId discordMsgId)

/-- Externally visible actions of the Pusher protocol client. -/
inductive PEffect where
  /-- `startHeartbeat(intervalMs)`: `setInterval` of the ping frame. -/
  | startHeartbeat (intervalMs : Nat)
  /-- `POST /v1/broadcasting/auth` with `{channel_name, socket_id}`: the
  subscription attempt for a private channel. -/
  | authRequest (channelName socketId : String)
  /-- The `pusher:subscribe` frame sent once a signed token is returned. -/
  | subscribeFrame (channelName authToken : String)
deriving DecidableEq

/-- Oracle for the broadcasting-auth endpoint: `some token` when the call
succeeds and returns an `auth` field, `none` when it fails or the token is
missing. -/
structure AuthEnv where
  auth : String → String → Option String

/-- `subscribeToChannel(channelName)` (src/index.js lines 68–104).  The
guard `if (!socketId)` is JavaScript truthiness: it aborts when the global
is still `null` (`none`) and also when it holds the empty string. -/
def subscribeToChannel (env : AuthEnv) (socketId : Option String)
    (channelName : String) : List PEffect :=
  match socketId with
  | none => []
  | some sid =>
    if sid == "" then []
    else
      match env.auth channelName sid with
      | none => [PEffect.authRequest channelName sid]
      | some tok =>
        [PEffect.authRequest channelName sid,
         PEffect.subscribeFrame channelName tok]

/-- The `pusher:connection_established` branch (src/index.js lines
124–133): store `data.socket_id`, start the heartbeat at
`data.activity_timeout * 1000` ms, then auto-subscribe to
`private-bot.<BOT_ID>`.  Returns the new `socketId` global and the
effects. -/
def handleConnectionEstablished (env : AuthEnv) (botId socketIdValue : String)
    (activityTimeout : Nat) : Option String × List PEffect :=
  let sid := some socketIdValue
  (sid, PEffect.startHeartbeat (activityTimeout * 1000)
    :: subscribeToChannel env sid ("private-bot." ++ botId))

/-- `true` exactly on Ignite REST message sends. -/
def isIgniteSendFx : Effect → Bool
  | Effect.igniteSend _ _ => true
  | _ => false

/-- `true` exactly on an Ignite send whose body is `"pong"`. -/
def isPongSend : Effect → Bool
  | Effect.igniteSend _ c => c == "pong"
  | _ => false

/-- `true` exactly on bridge-table writes. -/
def isSetBridgeFx : Effect → Bool
  | Effect.setBridge _ _ => true
  | _ => false

/-- `true` exactly on kick invocations. -/
def isKickFx : Effect → Bool
  | Effect.kick _ _ _ => true
  | _ => false

/-- `true` exactly on Discord message deletions. -/
def isDeleteFx : Effect → Bool
  | Effect.deleteDiscordMsg _ _ => true
  | _ => false

/-- `true` exactly on broadcasting-auth subscription attempts. -/
def isAuthRequestFx : PEffect → Bool
  | PEffect.authRequest _ _ => true
  | _ => false

/-- The forwarding block only sends to Discord and records correlations. -/
theorem forwardStep_effects_shape (env : Env) (b mm : List (String × String))
    (msg : IgniteMsg) :
    ∀ e ∈ (forwardStep env b mm msg).2,
      (∃ c s, e = Effect.discordSend c s) ∨
        ∃ k v, e = Effect.setCorrelation k v := by
  intro e he
  unfold forwardStep at he
  split at he
  · simp at he
  · split at he
    · simp at he
    · split at he
      · simp at he
        subst he
        exact Or.inl ⟨_, _, rfl⟩
      · simp at he
        rcases he with rfl | rfl | rfl
        · exact Or.inl ⟨_, _, rfl⟩
        · exact Or.inr ⟨_, _, rfl⟩
        · exact Or.inr ⟨_, _, rfl⟩

theorem forwardStep_filter_nil (env : Env) (b mm : List (String × String))
    (msg : IgniteMsg) (p : Effect → Bool)
    (h1 : ∀ c s, p (Effect.discordSend c s) = false)
    (h2 : ∀ k v, p (Effect.setCorrelation k v) = false) :
    List.filter p (forwardStep env b mm msg).2 = [] := by
  rw [List.filter_eq_nil_iff]
  intro e he
  rcases forwardStep_effects_shape env b mm msg e he with ⟨c, s, rfl⟩ | ⟨k, v, rfl⟩
  · simp [h1]
  · simp [h2]

theorem forwardStep_any_false (env : Env) (b mm : List (String × String))
    (msg : IgniteMsg) (p : Effect → Bool)
    (h1 : ∀ c s, p (Effect.discordSend c s) = false)
    (h2 : ∀ k v, p (Effect.setCorrelation k v) = false) :
    List.any (forwardStep env b mm msg).2 p = false := by
  rw [List.any_eq_false]
  intro e he
  rcases forwardStep_effects_shape env b mm msg e he with ⟨c, s, rfl⟩ | ⟨k, v, rfl⟩
  · simp [h1]
  · simp [h2]

/-- A lowercased content beginning with `!kick` fails both earlier tests of
the command chain. -/
theorem startsWith_kick_excludes (s : String)
    (h : jsStartsWith s "!kick" = true) :
    (s == "!ping") = false ∧ jsStartsWith s "!bridge" = false := by
  have h' : List.isPrefixOf ['!', 'k', 'i', 'c', 'k'] s.data = true := h
  rw [List.isPrefixOf_iff_prefix] at h'
  obtain ⟨t, ht⟩ := h'
  constructor
  · rw [beq_eq_false_iff_ne]
    intro heq
    subst heq
    exact absurd h (by decide)
  · unfold jsStartsWith
    rw [← ht]
    rfl

/-- The `!bridge` confirmation text is never the `!ping` reply. -/
theorem bridge_confirm_ne_pong (n : String) :
    (("This Ignite channel is now bridged with Discord channel #" ++ n)
      == "pong") = false := by
  rw [beq_eq_false_iff_ne]
  intro h
  have hl := congrArg String.length h
  rw [String.length_append] at hl
  have h1 : ("This Ignite channel is now bridged with Discord channel #"
    : String).length = 57 := rfl
  have h2 : ("pong" : String).length = 4 := rfl
  rw [h1, h2] at hl
  omega

theorem lookupCorrelation_register (m : List (String × String))
    (orig fresh : String) :
    lookupCorrelation (registerCorrelation m orig fresh) fresh = some orig ∧
      lookupCorrelation (registerCorrelation m orig fresh) orig = some fresh := by
  unfold lookupCorrelation registerCorrelation
  by_cases h : orig = fresh
  · subst h
    constructor <;> simp [mapGet_set_self]
  · exact ⟨mapGet_set_self _ _ _, by
      rw [mapGet_set_other _ _ _ _ h, mapGet_set_self]⟩

/-- Unfolding of the non-bot `message.created` handler into its command
chain and its forwarding block. -/
theorem handleMessageCreated_eq (env : Env) (st : State) (msg : IgniteMsg)
    (h : msg.author.is_bot = false) :
    handleMessageCreated env st msg =
      (⟨(commandStep env st.bridgedChannels msg).1,
        (forwardStep env st.bridgedChannels st.messageMap msg).1⟩,
       (commandStep env st.bridgedChannels msg).2
         ++ (forwardStep env st.bridgedChannels st.messageMap msg).2) := by
  unfold handleMessageCreated
  rw [h]
  simp

/-- The forwarding block when the origin channel is bridged, the Discord
channel resolves, and the send succeeds. -/
theorem forwardStep_success (env : Env) (b mm : List (String × String))
    (msg : IgniteMsg) (dc : String) (ch : DChannel) (newId : String)
    (h1 : mapGet b msg.channel_id = some dc)
    (h2 : env.discordChannels dc = some ch)
    (h3 : env.discordSendResult dc
      ("💬 [Ignite] " ++ msg.author.name ++ ": " ++ msg.content)
      = some newId) :
    forwardStep env b mm msg =
      (registerCorrelation mm msg.id newId,
       [Effect.discordSend dc
          ("💬 [Ignite] " ++ msg.author.name ++ ": " ++ msg.content),
        Effect.setCorrelation msg.id newId,
        Effect.setCorrelation newId msg.id]) := by
  unfold forwardStep
  simp only [h1, h2, h3]

/-- The Discord-to-Ignite handler when the channel is bridged and the
Ignite send succeeds. -/
theorem handleDiscordMessageCreate_success (env : Env) (st : State)
    (dmsg : DiscordMsg) (ic newId : String)
    (h0 : dmsg.authorBot = false)
    (h1 : mapGet st.bridgedChannels dmsg.channelId = some ic)
    (h2 : env.igniteSendResult ic
      ("[Discord] " ++ dmsg.authorUsername ++ ": " ++ dmsg.content)
      = some newId) :
    handleDiscordMessageCreate env st dmsg =
      (⟨st.bridgedChannels, registerCorrelation st.messageMap dmsg.id newId⟩,
       [Effect.igniteSend ic
          ("[Discord] " ++ dmsg.authorUsername ++ ": " ++ dmsg.content),
        Effect.setCorrelation dmsg.id newId,
        Effect.setCorrelation newId dmsg.id]) := by
  unfold handleDiscordMessageCreate
  rw [h0]
  simp only [Bool.false_eq_true, if_false, h1, h2]

/-- C3: an inbound message whose author is flagged as a bot never produces
a forwarded message in either direction: the Ignite `message.created`
handler and the Discord `messageCreate` handler both stop at the bot guard
with no effects at all. -/
theorem bot_author_never_forwarded (env : Env) (st : State) (msg : IgniteMsg)
    (dmsg : DiscordMsg) (h1 : msg.author.is_bot = true)
    (h2 : dmsg.authorBot = true) :
    (handleMessageCreated env st msg).2 = [] ∧
      (handleDiscordMessageCreate env st dmsg).2 = [] := by
  unfold handleMessageCreated handleDiscordMessageCreate
  rw [h1, h2]
  simp

/-- Environment used by the concrete witnesses: Discord channel `"D1"` is
a text channel named `"general"`, user `"U1"` resolves and is member
`"M1"` of guild `"G1"`, every send succeeds with a fresh id, and Discord
message fetches succeed. -/
def envW : Env :=
  ⟨fun id => if id == "D1" then some ⟨"general", 0⟩ else none,
   fun _ _ => some "dm1",
   fun _ _ => some "im1",
   fun id => if id == "U1" then some "U1" else none,
   fun g u => if g == "G1" && u == "U1" then some "M1" else none,
   fun _ _ => true⟩

/-- State with the single bridge `C1 ↔ D1`. -/
def stBridged : State := ⟨registerBridge [] "C1" "D1", []⟩

/-- Witness for `bot_author_never_forwarded` on a concrete bot-authored
message on each platform. -/
theorem bot_author_never_forwarded_witness :
    (⟨"m1", "hi", "C1", ⟨"u1", "al", "al", true⟩, none⟩
        : IgniteMsg).author.is_bot = true ∧
    (⟨"d1", "hi", "D1", "bob", true⟩ : DiscordMsg).authorBot = true ∧
    (handleMessageCreated envW stBridged
      ⟨"m1", "hi", "C1", ⟨"u1", "al", "al", true⟩, none⟩).2 = [] ∧
    (handleDiscordMessageCreate envW stBridged
      ⟨"d1", "hi", "D1", "bob", true⟩).2 = [] :=
  ⟨rfl, rfl,
    (bot_author_never_forwarded envW stBridged
      ⟨"m1", "hi", "C1", ⟨"u1", "al", "al", true⟩, none⟩
      ⟨"d1", "hi", "D1", "bob", true⟩ rfl rfl).1,
    (bot_author_never_forwarded envW stBridged
      ⟨"m1", "hi", "C1", ⟨"u1", "al", "al", true⟩, none⟩
      ⟨"d1", "hi", "D1", "bob", true⟩ rfl rfl).2⟩

/-- C4: in both forwarding directions, once the forward send succeeds the
correlation is registered symmetrically: looking up the new message id
returns the original message id and looking up the original returns the
new one. -/
theorem correlation_roundtrip (env : Env) (st : State) (msg : IgniteMsg)
    (dmsg : DiscordMsg) (dc ic newIdB newIdA : String) (ch : DChannel)
    (hA0 : msg.author.is_bot = false)
    (hA1 : mapGet st.bridgedChannels msg.channel_id = some dc)
    (hA2 : env.discordChannels dc = some ch)
    (hA3 : env.discordSendResult dc
      ("💬 [Ignite] " ++ msg.author.name ++ ": " ++ msg.content)
      = some newIdB)
    (hB0 : dmsg.authorBot = false)
    (hB1 : mapGet st.bridgedChannels dmsg.channelId = some ic)
    (hB2 : env.igniteSendResult ic
      ("[Discord] " ++ dmsg.authorUsername ++ ": " ++ dmsg.content)
      = some newIdA) :
    (lookupCorrelation (handleMessageCreated env st msg).1.messageMap newIdB
        = some msg.id ∧
     lookupCorrelation (handleMessageCreated env st msg).1.messageMap msg.id
        = some newIdB) ∧
    (lookupCorrelation (handleDiscordMessageCreate env st dmsg).1.messageMap
        newIdA = some dmsg.id ∧
     lookupCorrelation (handleDiscordMessageCreate env st dmsg).1.messageMap
        dmsg.id = some newIdA) := by
  constructor
  · rw [handleMessageCreated_eq env st msg hA0,
      forwardStep_success env st.bridgedChannels st.messageMap msg dc ch
        newIdB hA1 hA2 hA3]
    exact lookupCorrelation_register st.messageMap msg.id newIdB
  · rw [handleDiscordMessageCreate_success env st dmsg ic newIdA hB0 hB1 hB2]
    exact lookupCorrelation_register st.messageMap dmsg.id newIdA

/-- Witness for `correlation_roundtrip`: the message `"hi"` in the bridged
Ignite channel `"C1"` and a Discord message in the bridged channel `"D1"`,
with both sends succeeding. -/
theorem correlation_roundtrip_witness :
    mapGet stBridged.bridgedChannels "C1" = some "D1" ∧
    mapGet stBridged.bridgedChannels "D1" = some "C1" ∧
    (lookupCorrelation (handleMessageCreated envW stBridged
        ⟨"m3", "hi", "C1", ⟨"u1", "alice", "alice", false⟩, none⟩).1.messageMap
        "dm1" = some "m3" ∧
     lookupCorrelation (handleMessageCreated envW stBridged
        ⟨"m3", "hi", "C1", ⟨"u1", "alice", "alice", false⟩, none⟩).1.messageMap
        "m3" = some "dm1") ∧
    (lookupCorrelation (handleDiscordMessageCreate envW stBridged
        ⟨"d9", "yo", "D1", "bob", false⟩).1.messageMap "im1" = some "d9" ∧
     lookupCorrelation (handleDiscordMessageCreate envW stBridged
        ⟨"d9", "yo", "D1", "bob", false⟩).1.messageMap "d9" = some "im1") :=
  ⟨by decide, by decide,
    (correlation_roundtrip envW stBridged
      ⟨"m3", "hi", "C1", ⟨"u1", "alice", "alice", false⟩, none⟩
      ⟨"d9", "yo", "D1", "bob", false⟩ "D1" "C1" "dm1" "im1" ⟨"general", 0⟩
      rfl (by decide) rfl rfl rfl (by decide) rfl).1,
    (correlation_roundtrip envW stBridged
      ⟨"m3", "hi", "C1", ⟨"u1", "alice", "alice", false⟩, none⟩
      ⟨"d9", "yo", "D1", "bob", false⟩ "D1" "C1" "dm1" "im1" ⟨"general", 0⟩
      rfl (by decide) rfl rfl rfl (by decide) rfl).2⟩

theorem commandStep_ping_eq (env : Env) (b : List (String × String))
    (msg : IgniteMsg) (h : jsToLower msg.content = "!ping") :
    commandStep env b msg = (b, [Effect.igniteSend msg.channel_id "pong"]) := by
  unfold commandStep
  simp [h]

theorem commandStep_kick_eq (env : Env) (b : List (String × String))
    (msg : IgniteMsg)
    (h : jsStartsWith (jsToLower msg.content) "!kick" = true) :
    commandStep env b msg = (b, kickFx env msg) := by
  obtain ⟨h1, h2⟩ := startsWith_kick_excludes _ h
  unfold commandStep
  rw [h1, h2, h]
  simp

/-- The `!kick` branch only ever invokes kicks. -/
theorem kickFx_shape (env : Env) (msg : IgniteMsg) :
    ∀ e ∈ kickFx env msg, ∃ g u r, e = Effect.kick g u r := by
  intro e he
  unfold kickFx at he
  split at he
  · split at he
    · simp at he
    · split at he
      · simp at he
      · split at he
        · simp at he
        · simp at he
          subst he
          exact ⟨_, _, _, rfl⟩
  · simp at he

/-- The `!bridge` branch only writes the bridge table and posts the fixed
confirmation text. -/
theorem bridgeStep_shape (env : Env) (b : List (String × String))
    (msg : IgniteMsg) :
    ∀ e ∈ (bridgeStep env b msg).2,
      (∃ k v, e = Effect.setBridge k v) ∨
        ∃ c n, e = Effect.igniteSend c
          ("This Ignite channel is now bridged with Discord channel #"
            ++ n) := by
  intro e he
  unfold bridgeStep at he
  split at he
  · split at he
    · simp at he
    · split at he
      · simp at he
        rcases he with rfl | rfl | rfl
        · exact Or.inl ⟨_, _, rfl⟩
        · exact Or.inl ⟨_, _, rfl⟩
        · exact Or.inr ⟨_, _, rfl⟩
      · simp at he
  · simp at he

/-- C7: command processing never suppresses forwarding: for every non-bot
`message.created` whose origin channel is bridged to a resolvable Discord
channel, the handler's effects contain the forward send of the formatted
message to that Discord channel, whatever the content (commands
included). -/
theorem forwarding_not_suppressed (env : Env) (st : State) (msg : IgniteMsg)
    (dc : String) (ch : DChannel)
    (hbot : msg.author.is_bot = false)
    (hlk : mapGet st.bridgedChannels msg.channel_id = some dc)
    (hch : env.discordChannels dc = some ch) :
    Effect.discordSend dc
        ("💬 [Ignite] " ++ msg.author.name ++ ": " ++ msg.content)
      ∈ (handleMessageCreated env st msg).2 := by
  rw [handleMessageCreated_eq env st msg hbot]
  refine List.mem_append_right _ ?_
  unfold forwardStep
  simp only [hlk, hch]
  rcases hs : env.discordSendResult dc
      ("💬 [Ignite] " ++ msg.author.name ++ ": " ++ msg.content)
      with _ | nid <;> simp [hs]

/-- Witness for `forwarding_not_suppressed`: the command message
`"!ping"` in the bridged channel `"C1"` is still forwarded to `"D1"`. -/
theorem forwarding_not_suppressed_witness :
    (⟨"m5", "!ping", "C1", ⟨"u1", "alice", "alice", false⟩, none⟩
        : IgniteMsg).author.is_bot = false ∧
    mapGet stBridged.bridgedChannels "C1" = some "D1" ∧
    Effect.discordSend "D1" ("💬 [Ignite] " ++ "alice" ++ ": " ++ "!ping")
      ∈ (handleMessageCreated envW stBridged
          ⟨"m5", "!ping", "C1", ⟨"u1", "alice", "alice", false⟩, none⟩).2 :=
  ⟨rfl, by decide,
    forwarding_not_suppressed envW stBridged
      ⟨"m5", "!ping", "C1", ⟨"u1", "alice", "alice", false⟩, none⟩
      "D1" ⟨"general", 0⟩ rfl (by decide) rfl⟩

/-- C8: a non-bot `message.created` whose content lowercases to exactly
`"!ping"` produces exactly one Ignite REST send in the whole handler, and
it is `{content: "pong"}` to the originating channel. -/
theorem ping_single_reply (env : Env) (st : State) (msg : IgniteMsg)
    (hbot : msg.author.is_bot = false)
    (hping : jsToLower msg.content = "!ping") :
    (handleMessageCreated env st msg).2.filter isIgniteSendFx
      = [Effect.igniteSend msg.channel_id "pong"] := by
  rw [handleMessageCreated_eq env st msg hbot, List.filter_append,
    commandStep_ping_eq env st.bridgedChannels msg hping,
    forwardStep_filter_nil env st.bridgedChannels st.messageMap msg
      isIgniteSendFx (fun _ _ => rfl) (fun _ _ => rfl)]
  simp [isIgniteSendFx]

/-- Witness for `ping_single_reply` on the mixed-case `"!PING"` in channel
`"C1"` (with the channel bridged, so the forward also runs). -/
theorem ping_single_reply_witness :
    jsToLower "!PING" = "!ping" ∧
    (handleMessageCreated envW stBridged
        ⟨"m6", "!PING", "C1", ⟨"u1", "alice", "alice", false⟩, none⟩).2.filter
        isIgniteSendFx
      = [Effect.igniteSend "C1" "pong"] :=
  ⟨by decide,
    ping_single_reply envW stBridged
      ⟨"m6", "!PING", "C1", ⟨"u1", "alice", "alice", false⟩, none⟩
      rfl (by decide)⟩

theorem kickFx_user_fail (env : Env) (msg : IgniteMsg)
    (c0 target : String) (rest : List String)
    (hsplit : jsSplit msg.content ' ' = c0 :: target :: rest)
    (hu : env.discordUsers target = none) :
    kickFx env msg = [] := by
  unfold kickFx
  rw [hsplit]
  simp [hu]

theorem kickFx_guild_fail (env : Env) (msg : IgniteMsg)
    (c0 target : String) (rest : List String)
    (hsplit : jsSplit msg.content ' ' = c0 :: target :: rest)
    (hg : msg.guild = none) :
    kickFx env msg = [] := by
  unfold kickFx
  rw [hsplit]
  rcases hu : env.discordUsers target with _ | u <;> simp [hu, hg]

theorem kickFx_member_fail (env : Env) (msg : IgniteMsg)
    (c0 target u g : String) (rest : List String)
    (hsplit : jsSplit msg.content ' ' = c0 :: target :: rest)
    (hu : env.discordUsers target = some u)
    (hg : msg.guild = some g)
    (hm : env.guildMembers g u = none) :
    kickFx env msg = [] := by
  unfold kickFx
  rw [hsplit]
  simp [hu, hg, hm]

theorem kickFx_success (env : Env) (msg : IgniteMsg)
    (c0 target u g m : String) (rest : List String)
    (hsplit : jsSplit msg.content ' ' = c0 :: target :: rest)
    (hu : env.discordUsers target = some u)
    (hg : msg.guild = some g)
    (hm : env.guildMembers g u = some m) :
    kickFx env msg = [Effect.kick g m "Kicked by command"] := by
  unfold kickFx
  rw [hsplit]
  simp [hu, hg, hm]

/-- C6: for a non-bot `!kick <id>` message, the whole handler sends no
message back to Ignite; if the user fetch fails, or the message carries no
guild context, or the member fetch fails, no kick is invoked; and when
every step succeeds the resolved member is kicked with the fixed audit
reason `"Kicked by command"`. -/
theorem kick_resolution_chain (env : Env) (st : State) (msg : IgniteMsg)
    (c0 target : String) (rest : List String)
    (hbot : msg.author.is_bot = false)
    (hkick : jsStartsWith (jsToLower msg.content) "!kick" = true)
    (hsplit : jsSplit msg.content ' ' = c0 :: target :: rest) :
    ((handleMessageCreated env st msg).2.filter isIgniteSendFx = []) ∧
    (env.discordUsers target = none →
      (handleMessageCreated env st msg).2.filter isKickFx = []) ∧
    (msg.guild = none →
      (handleMessageCreated env st msg).2.filter isKickFx = []) ∧
    (∀ u g, env.discordUsers target = some u → msg.guild = some g →
      env.guildMembers g u = none →
      (handleMessageCreated env st msg).2.filter isKickFx = []) ∧
    (∀ u g m, env.discordUsers target = some u → msg.guild = some g →
      env.guildMembers g u = some m →
      Effect.kick g m "Kicked by command"
        ∈ (handleMessageCreated env st msg).2) := by
  rw [handleMessageCreated_eq env st msg hbot,
    commandStep_kick_eq env st.bridgedChannels msg hkick]
  have hfwdA := forwardStep_filter_nil env st.bridgedChannels st.messageMap
    msg isIgniteSendFx (fun _ _ => rfl) (fun _ _ => rfl)
  have hfwdK := forwardStep_filter_nil env st.bridgedChannels st.messageMap
    msg isKickFx (fun _ _ => rfl) (fun _ _ => rfl)
  have hkShape : List.filter isIgniteSendFx (kickFx env msg) = [] := by
    rw [List.filter_eq_nil_iff]
    intro e he
    rcases kickFx_shape env msg e he with ⟨g, u, r, rfl⟩
    simp [isKickFx, isIgniteSendFx]
  refine ⟨?_, ?_, ?_, ?_, ?_⟩
  · simp only [List.filter_append, hfwdA, hkShape, List.append_nil]
  · intro hu
    simp only [List.filter_append, hfwdK,
      kickFx_user_fail env msg c0 target rest hsplit hu]
    simp
  · intro hg
    simp only [List.filter_append, hfwdK,
      kickFx_guild_fail env msg c0 target rest hsplit hg]
    simp
  · intro u g hu hg hm
    simp only [List.filter_append, hfwdK,
      kickFx_member_fail env msg c0 target u g rest hsplit hu hg hm]
    simp
  · intro u g m hu hg hm
    refine List.mem_append_left _ ?_
    rw [kickFx_success env msg c0 target u g m rest hsplit hu hg hm]
    simp

/-- Witness for `kick_resolution_chain`: `"!kick U1"` with guild `"G1"`,
where the user resolves to `"U1"` and the member to `"M1"`, so the kick
fires with the fixed reason and no Ignite send is issued. -/
theorem kick_resolution_chain_witness :
    jsSplit "!kick U1" ' ' = ["!kick", "U1"] ∧
    (handleMessageCreated envW stBridged
        ⟨"m7", "!kick U1", "C1", ⟨"u1", "alice", "alice", false⟩,
          some "G1"⟩).2.filter isIgniteSendFx = [] ∧
    Effect.kick "G1" "M1" "Kicked by command"
      ∈ (handleMessageCreated envW stBridged
          ⟨"m7", "!kick U1", "C1", ⟨"u1", "alice", "alice", false⟩,
            some "G1"⟩).2 :=
  ⟨by decide,
    (kick_resolution_chain envW stBridged
      ⟨"m7", "!kick U1", "C1", ⟨"u1", "alice", "alice", false⟩, some "G1"⟩
      "!kick" "U1" [] rfl (by decide) (by decide)).1,
    (kick_resolution_chain envW stBridged
      ⟨"m7", "!kick U1", "C1", ⟨"u1", "alice", "alice", false⟩, some "G1"⟩
      "!kick" "U1" [] rfl (by decide) (by decide)).2.2.2.2
      "U1" "G1" "M1" rfl rfl rfl⟩

/-- C10: for every `message.created` event, at most one of the three
command actions is attempted: a `"pong"` reply, a bridge-table write, and
a kick never co-occur in one handler pass. -/
theorem command_branches_exclusive (env : Env) (st : State)
    (msg : IgniteMsg) :
    (((handleMessageCreated env st msg).2.any isPongSend).toNat
      + ((handleMessageCreated env st msg).2.any isSetBridgeFx).toNat
      + ((handleMessageCreated env st msg).2.any isKickFx).toNat) ≤ 1 := by
  cases hb : msg.author.is_bot with
  | true =>
    unfold handleMessageCreated
    simp [hb]
  | false =>
    rw [handleMessageCreated_eq env st msg hb]
    have hfP := forwardStep_any_false env st.bridgedChannels st.messageMap
      msg isPongSend (fun _ _ => rfl) (fun _ _ => rfl)
    have hfB := forwardStep_any_false env st.bridgedChannels st.messageMap
      msg isSetBridgeFx (fun _ _ => rfl) (fun _ _ => rfl)
    have hfK := forwardStep_any_false env st.bridgedChannels st.messageMap
      msg isKickFx (fun _ _ => rfl) (fun _ _ => rfl)
    simp only [List.any_append, hfP, hfB, hfK, Bool.or_false]
    unfold commandStep
    split
    · simp [isPongSend, isSetBridgeFx, isKickFx]
    · split
      · have hP : List.any (bridgeStep env st.bridgedChannels msg).2
            isPongSend = false := by
          rw [List.any_eq_false]
          intro e he
          rcases bridgeStep_shape env st.bridgedChannels msg e he with
            ⟨k, v, rfl⟩ | ⟨c, n, rfl⟩
          · simp [isPongSend]
          · simp [isPongSend, bridge_confirm_ne_pong]
        have hK : List.any (bridgeStep env st.bridgedChannels msg).2
            isKickFx = false := by
          rw [List.any_eq_false]
          intro e he
          rcases bridgeStep_shape env st.bridgedChannels msg e he with
            ⟨k, v, rfl⟩ | ⟨c, n, rfl⟩ <;> simp [isKickFx]
        rw [hP, hK]
        cases List.any (bridgeStep env st.bridgedChannels msg).2
          isSetBridgeFx <;> simp
      · split
        · have hP : List.any (kickFx env msg) isPongSend = false := by
            rw [List.any_eq_false]
            intro e he
            rcases kickFx_shape env msg e he with ⟨g, u, r, rfl⟩
            simp [isPongSend]
          have hB : List.any (kickFx env msg) isSetBridgeFx = false := by
            rw [List.any_eq_false]
            intro e he
            rcases kickFx_shape env msg e he with ⟨g, u, r, rfl⟩
            simp [isSetBridgeFx]
          rw [hP, hB]
          cases List.any (kickFx env msg) isKickFx <;> simp
        · simp

/-- Per-entry accounting for the deletion scan: when every matching entry
resolves, the scan deletes once per bridge-table entry whose Ignite side is
the deleted message's channel, and every delete targets the correlated id
in a channel the table pairs with that channel. -/
theorem deleteScan_shape (env : Env) (ch d : String)
    (l : List (String × String))
    (hres : ∀ p ∈ l, p.2 = ch →
      (∃ c, env.discordChannels p.1 = some c)
        ∧ env.discordMessages p.1 d = true) :
    ((l.flatMap (deleteScanEntry env ch d)).countP isDeleteFx
        = l.countP (fun p => p.2 == ch)) ∧
    (∀ dc mid,
      Effect.deleteDiscordMsg dc mid ∈ l.flatMap (deleteScanEntry env ch d) →
      mid = d ∧ (dc, ch) ∈ l) := by
  induction l with
  | nil => simp
  | cons p t ih =>
    obtain ⟨ih1, ih2⟩ := ih fun q hq hqc =>
      hres q (List.mem_cons_of_mem p hq) hqc
    have hempty : ¬p.2 = ch → deleteScanEntry env ch d p = [] := by
      intro hc
      unfold deleteScanEntry
      simp [hc]
    have hentry : p.2 = ch → deleteScanEntry env ch d p
        = [Effect.fetchDiscordMsg p.1 d, Effect.deleteDiscordMsg p.1 d] := by
      intro hc
      obtain ⟨⟨c, hcch⟩, hmsg⟩ := hres p (List.mem_cons_self p t) hc
      unfold deleteScanEntry
      simp [hc, hcch, hmsg]
    constructor
    · by_cases hc : p.2 = ch
      · rw [List.flatMap_cons, List.countP_append, hentry hc, ih1,
          List.countP_cons]
        simp [isDeleteFx, hc, Nat.add_comm]
      · rw [List.flatMap_cons, List.countP_append, hempty hc, ih1,
          List.countP_cons]
        simp [hc]
    · intro dc mid hmem
      rw [List.flatMap_cons, List.mem_append] at hmem
      rcases hmem with hin | hin
      · by_cases hc : p.2 = ch
        · rw [hentry hc] at hin
          simp at hin
          refine ⟨hin.2, ?_⟩
          rw [hin.1, ← hc]
          simp
        · rw [hempty hc] at hin
          simp at hin
      · obtain ⟨hmid, hmem'⟩ := ih2 dc mid hin
        exact ⟨hmid, List.mem_cons_of_mem p hmem'⟩

/-- C5 (amended): for a `message.deleted` whose id has a correlation, the
correlated Discord message is deleted once per bridge-table entry whose
Ignite side is the origin channel — hence exactly once when that channel
is the counterpart of exactly one entry — and every delete targets the
correlated message id in a Discord channel the table pairs with the
origin channel. -/
theorem delete_once_per_matching_entry (env : Env) (st : State)
    (mId ch d : String)
    (hcorr : mapGet st.messageMap mId = some d)
    (hres : ∀ p ∈ st.bridgedChannels, p.2 = ch →
      (∃ c, env.discordChannels p.1 = some c)
        ∧ env.discordMessages p.1 d = true) :
    ((handleMessageDeleted env st mId ch).countP isDeleteFx
        = st.bridgedChannels.countP (fun p => p.2 == ch)) ∧
    (∀ dc mid,
      Effect.deleteDiscordMsg dc mid ∈ handleMessageDeleted env st mId ch →
      mid = d ∧ (dc, ch) ∈ st.bridgedChannels) := by
  unfold handleMessageDeleted
  simp only [hcorr]
  exact deleteScan_shape env ch d st.bridgedChannels hres

/-- Environment where every Discord channel and message resolves. -/
def envAll : Env :=
  ⟨fun _ => some ⟨"general", 0⟩, fun _ _ => some "dm1",
   fun _ _ => some "im1", fun _ => some "U1", fun _ _ => some "M1",
   fun _ _ => true⟩

/-- Witness for `delete_once_per_matching_entry`: the single bridge
`A ↔ B` with correlation `m ↔ d`: deleting `m` in channel `"A"` deletes
exactly once. -/
theorem delete_once_per_matching_entry_witness :
    mapGet (registerCorrelation [] "m" "d") "m" = some "d" ∧
    ((handleMessageDeleted envAll
        ⟨registerBridge [] "A" "B", registerCorrelation [] "m" "d"⟩
        "m" "A").countP isDeleteFx
      = (registerBridge [] "A" "B").countP (fun p => p.2 == "A")) ∧
    (handleMessageDeleted envAll
        ⟨registerBridge [] "A" "B", registerCorrelation [] "m" "d"⟩
        "m" "A").countP isDeleteFx = 1 :=
  ⟨by decide,
    (delete_once_per_matching_entry envAll
      ⟨registerBridge [] "A" "B", registerCorrelation [] "m" "d"⟩
      "m" "A" "d" (by decide)
      (fun p hp hc => ⟨⟨⟨"general", 0⟩, rfl⟩, rfl⟩)).1,
    by decide⟩

/-- C5 counterexample: after `registerBridge("A","B")` then
`registerBridge("A","C")` (the stale-overwrite state), a `message.deleted`
for the correlated id `"m"` in channel `"A"` matches two bridge-table
entries, so the correlated Discord message `"d"` is fetched and deleted
twice — not exactly once as claimed. -/
theorem delete_twice_on_stale_bridge :
    mapGet (registerCorrelation [] "m" "d") "m" = some "d" ∧
    (handleMessageDeleted envAll
        ⟨registerBridge (registerBridge [] "A" "B") "A" "C",
          registerCorrelation [] "m" "d"⟩ "m" "A").countP isDeleteFx = 2 :=
  ⟨by decide, by decide⟩

/-- C9 counterexample: a `connection_established` payload carrying the
empty string as `socket_id`: the id is stored and the heartbeat is
started, but JavaScript truthiness (`if (!socketId)`) aborts
`subscribeToChannel`, so no subscribe request is issued — the claim
requires exactly one for every `socket_id`. -/
theorem connection_established_empty_socket :
    (handleConnectionEstablished ⟨fun _ _ => some "tok"⟩ "B1" "" 30).1
        = some "" ∧
    (handleConnectionEstablished ⟨fun _ _ => some "tok"⟩ "B1" "" 30).2.countP
        isAuthRequestFx = 0 :=
  ⟨rfl, by decide⟩

/-- C9 (amended): on `connection_established` with socket id `s` and
activity timeout `t`, the client stores `s` and starts the heartbeat at
`t * 1000` ms unconditionally, and issues exactly one subscribe request —
for the channel `private-bot.<botId>` — provided `s` is non-empty; an
empty `s` trips the `!socketId` guard and no request is issued. -/
theorem connection_established_behavior (env : AuthEnv) (botId s : String)
    (t : Nat) :
    (handleConnectionEstablished env botId s t).1 = some s ∧
    (handleConnectionEstablished env botId s t).2.head?
        = some (PEffect.startHeartbeat (t * 1000)) ∧
    ((handleConnectionEstablished env botId s t).2.filter isAuthRequestFx
      = if s = "" then []
        else [PEffect.authRequest ("private-bot." ++ botId) s]) := by
  refine ⟨rfl, rfl, ?_⟩
  unfold handleConnectionEstablished subscribeToChannel
  by_cases h : s = ""
  · subst h
    simp [isAuthRequestFx]
  · have hs : (s == "") = false := beq_eq_false_iff_ne.mpr h
    rcases ha : env.auth ("private-bot." ++ botId) s with _ | tok <;>
      simp [hs, ha, isAuthRequestFx, h]

end IgniteBridge
